import Mathlib

/-!
# Verification of the hyped-2018 pod firmware against its specification

Shallow embedding of the parts of the HYPED 2018 pod control firmware that the
specification's claims are about:

* the sensor aggregator's publish-on-change logic
  (`BeagleBone_black/src/sensors/main.cpp`: `Main::run`, `Main::updateImu`,
  `Main::updateProxi`, `Main::updateBattery`);
* the navigation module's published emergency-braking-distance derivation
  (`BeagleBone_black/src/navigation/navigation.hpp`);
* the motor controller worker (`motor_control/main.cpp`): `initMotors`,
  `prepareMotors`, `accelerateMotors`, `decelerateMotors`, `stopMotors`,
  `updateMotorData`, `updateMotorFailure` and the dummy setpoint laws
  `accelerationVelocity` / `decelerationVelocity` / `accelerationTorque` /
  `decelerationTorque`.

Stateful C++ members become explicit state passing on a `MainState` record;
every externally visible action (CAN communicator call, registry publication,
barrier wait) is recorded in an event trace so that ordering and frame
properties can be stated.  Readings delivered by the outside world (actual
motor velocities, health-check results, state-machine snapshots) are supplied
as explicit oracle arguments; loops that block on the outside world take a
finite list of oracle responses and return `none` when the list is exhausted
before the loop's exit condition is reached.
-/

namespace hyped

/-! ## Sensor aggregator (`sensors/main.cpp`) -/

namespace sensors

/-- Models `data::DataPoint<T>`: a value stamped with a monotonic timestamp. -/
structure DataPoint (α : Type) where
  value : α
  timestamp : Nat
  deriving Repr, DecidableEq

/-- One IMU reading: acceleration and gyro data points
(`sensors_.imu[i].acc.timestamp` is the field the aggregator compares). -/
structure Imu where
  acc : DataPoint Int
  gyr : DataPoint Int
  deriving Repr, DecidableEq

/-- Models `data::Sensors::kNumImus`. -/
abbrev kNumImus : Nat := 8

/-- The aggregator's local `Sensors` buffer as used by `sensors/main.cpp`:
eight IMUs and two timestamped proximity banks (front and back). -/
structure Sensors where
  imu : Fin kNumImus → Imu
  proxi_front : DataPoint (List Int)
  proxi_back : DataPoint (List Int)

/-- Models `Main::updateImu`: iterate over all IMUs; return `false` as soon as one
IMU's acceleration timestamp equals its previous value, `true` only when every
IMU's timestamp changed. -/
def updateImu (old_sensors sensors : Sensors) : Bool :=
  (List.finRange kNumImus).all fun i =>
    !((old_sensors.imu i).acc.timestamp == (sensors.imu i).acc.timestamp)

/-- Models `Main::updateProxi`: `false` if the front bank's timestamp is unchanged,
else `false` if the back bank's timestamp is unchanged, else `true`. -/
def updateProxi (old_sensors sensors : Sensors) : Bool :=
  if old_sensors.proxi_front.timestamp == sensors.proxi_front.timestamp then
    false
  else if old_sensors.proxi_back.timestamp == sensors.proxi_back.timestamp then
    false
  else
    true

/-- The publish condition of `Main::run`'s loop for the Sensors snapshot:
`if (updateImu() || updateProxi()) { data_.setSensorsData(sensors_); ... }`. -/
def sensorsPublish (old_sensors sensors : Sensors) : Bool :=
  updateImu old_sensors sensors || updateProxi old_sensors sensors

/-- The publish condition as claim C4 words it (for comparison with
`sensorsPublish`, which is the one taken from the source): some IMU timestamp
advanced AND both proximity banks' timestamps advanced. -/
def sensorsPublishClaimed (old_sensors sensors : Sensors) : Bool :=
  ((List.finRange kNumImus).any fun i =>
      !((old_sensors.imu i).acc.timestamp == (sensors.imu i).acc.timestamp))
  && (!(old_sensors.proxi_front.timestamp == sensors.proxi_front.timestamp)
      && !(old_sensors.proxi_back.timestamp == sensors.proxi_back.timestamp))

/-- One battery's telemetry (`Battery{voltage, current, temperature, charge}`
per the external-interface section of the spec; `fake_batteries.cpp` writes
`voltage`, `temperature`, `current`). -/
structure Battery where
  voltage : Int
  current : Int
  temperature : Int
  charge : Int
  deriving Repr, DecidableEq

/-- Number of low-power batteries (`BMS_LP = 2` in the sensor demo main; the
aggregator's `updateBattery` loops over `data::Batteries::kNumLPBatteries`). -/
abbrev kNumLPBatteries : Nat := 2

/-- Number of high-power batteries (`BMS_HP = 1` in the sensor demo main). -/
abbrev kNumHPBatteries : Nat := 1

/-- The `Batteries` snapshot.  The low-power set is the one
`sensors/main.cpp` reads and compares; the high-power set is carried in the
snapshot as the spec's data model describes (the `data.hpp` under src/ is an
older revision without a `Batteries` struct, so the field list follows the
spec's table for §3). -/
structure Batteries where
  low_power_batteries : Fin kNumLPBatteries → Battery
  high_power_batteries : Fin kNumHPBatteries → Battery

/-- Models `Main::updateBattery`: loop over the low-power batteries only; return
`true` as soon as one battery's voltage or temperature differs from the
previous buffer, `false` when none does.  The high-power set is not examined
by the source. -/
def updateBattery (old_batteries batteries : Batteries) : Bool :=
  (List.finRange kNumLPBatteries).any fun i =>
    !((old_batteries.low_power_batteries i).voltage
        == (batteries.low_power_batteries i).voltage)
    || !((old_batteries.low_power_batteries i).temperature
        == (batteries.low_power_batteries i).temperature)

/-- The Batteries publish condition as claim C9 words it (for comparison with
`updateBattery`, which is the one taken from the source): some battery in the
low-power OR the high-power set changed its voltage or temperature. -/
def batteriesPublishClaimed (old_batteries batteries : Batteries) : Bool :=
  ((List.finRange kNumLPBatteries).any fun i =>
    !((old_batteries.low_power_batteries i).voltage
        == (batteries.low_power_batteries i).voltage)
    || !((old_batteries.low_power_batteries i).temperature
        == (batteries.low_power_batteries i).temperature))
  || ((List.finRange kNumHPBatteries).any fun i =>
    !((old_batteries.high_power_batteries i).voltage
        == (batteries.high_power_batteries i).voltage)
    || !((old_batteries.high_power_batteries i).temperature
        == (batteries.high_power_batteries i).temperature))

/-! ### Concrete sensor buffers used as counterexamples and witnesses -/

/-- A sensors buffer with every timestamp at 5 (IMUs) and 0 (proxi banks). -/
def exSensorsA : Sensors :=
  { imu := fun _ => { acc := ⟨0, 5⟩, gyr := ⟨0, 5⟩ }
    proxi_front := ⟨[], 0⟩
    proxi_back := ⟨[], 0⟩ }

/-- A follow-up buffer in which no IMU timestamp advanced but both proxi
banks' timestamps did. -/
def exSensorsB : Sensors :=
  { imu := fun _ => { acc := ⟨0, 5⟩, gyr := ⟨0, 5⟩ }
    proxi_front := ⟨[], 1⟩
    proxi_back := ⟨[], 1⟩ }

/-- A follow-up buffer to `exSensorsA` in which IMU 0's acceleration
timestamp is frozen at 5 while the other seven IMUs and both proxi banks
advanced. -/
def exSensorsC : Sensors :=
  { imu := fun i => if i = 0 then { acc := ⟨0, 5⟩, gyr := ⟨0, 6⟩ }
      else { acc := ⟨0, 6⟩, gyr := ⟨0, 6⟩ }
    proxi_front := ⟨[], 1⟩
    proxi_back := ⟨[], 1⟩ }

/-- A batteries buffer: all telemetry at its initial values. -/
def exBatteriesA : Batteries :=
  { low_power_batteries := fun _ => ⟨170, 200, 30, 0⟩
    high_power_batteries := fun _ => ⟨1100, 200, 30, 0⟩ }

/-- A follow-up buffer in which only the high-power battery's voltage
changed; every low-power battery is byte-for-byte the same. -/
def exBatteriesB : Batteries :=
  { low_power_batteries := fun _ => ⟨170, 200, 30, 0⟩
    high_power_batteries := fun _ => ⟨1050, 200, 30, 0⟩ }

end sensors

/-! ## Navigation (`navigation/navigation.hpp`) -/

namespace navigation

/-- Models `hyped::navigation::kEmergencyDeceleration = 24` m/s²
(navigation.hpp line 49).  `NavigationType` is modelled by `ℚ`. -/
def kEmergencyDeceleration : ℚ := 24

/-- Modelled from the spec: the body of
`Navigation::getEmergencyBrakingDistance` is not under src/ (navigation.hpp
only declares it); the spec's published derivation is
`emergency_braking_distance = velocity² / (2 · 24.0)` metres, with the
deceleration constant `kEmergencyDeceleration` taken from the source header. -/
def getEmergencyBrakingDistance (velocity : ℚ) : ℚ :=
  velocity * velocity / (2 * kEmergencyDeceleration)

end navigation

/-! ## Motor controller (`motor_control/main.cpp`) -/

namespace motor_control

/-- Models `data::State`: the pod state machine's states (the constructors the motor
controller dispatches on). -/
inductive State where
  | kIdle
  | kCalibrating
  | kAccelerating
  | kDecelerating
  | kRunComplete
  | kExiting
  | kEmergencyBraking
  | kFailureStopped
  deriving Repr, DecidableEq

/-- Models `data::ModuleStatus`. -/
inductive ModuleStatus where
  | kStart
  | kInit
  | kReady
  | kCriticalFailure
  deriving Repr, DecidableEq

/-- The state-machine snapshot the motor controller reads
(`data_.getStateMachineData()`). -/
structure StateMachineData where
  current_state : State
  critical_failure : Bool
  deriving Repr, DecidableEq

/-- Models `motor_velocity_`: actual velocities of the four controllers, as returned
by `communicator_.requestActualVelocity()`. -/
structure MotorVelocity where
  velocity_1 : Int
  velocity_2 : Int
  velocity_3 : Int
  velocity_4 : Int
  deriving Repr, DecidableEq

/-- Models `motor_torque_`: actual torques of the four controllers. -/
structure MotorTorque where
  torque_1 : Int
  torque_2 : Int
  torque_3 : Int
  torque_4 : Int
  deriving Repr, DecidableEq

/-- Models `data::Motors`, the published MotorData substructure as `motor_control`'s
`Main` writes it: module status, four velocities and four torques. -/
structure Motors where
  module_status : ModuleStatus
  velocity_1 : Int
  velocity_2 : Int
  velocity_3 : Int
  velocity_4 : Int
  torque_1 : Int
  torque_2 : Int
  torque_3 : Int
  torque_4 : Int
  deriving Repr, DecidableEq

/-- Every externally visible action of the motor controller: calls on the CAN
communicator, registry publications, and post-calibration-barrier waits. -/
inductive Event where
  | registerControllers
  | configureControllers
  | prepareMotorsCall
  | healthCheck
  | sendTargetVelocity (v : Int)
  | sendTargetTorque (t : Int)
  | requestActualVelocity
  | requestActualTorque
  | quickStopAll
  | enterPreOperational
  | setMotorData (m : Motors)
  | barrierWait
  deriving Repr, DecidableEq

/-- The mutable members of `motor_control::Main`, threaded explicitly. -/
structure MainState where
  state_ : StateMachineData
  motor_data_ : Motors
  target_velocity_ : Int
  target_torque_ : Int
  nav_calib_ : Bool
  motors_init_ : Bool
  motors_ready_ : Bool
  motor_failure_ : Bool
  all_motors_stopped_ : Bool
  motor_velocity_ : MotorVelocity
  motor_torque_ : MotorTorque
  deriving Repr, DecidableEq

/-- Models `Main::updateMotorData`: request actual velocity and torque from the
communicator (delivered here as the oracle argument `reading`), copy them into
the MotorData snapshot and publish it via `data_.setMotorData`. -/
def updateMotorData (s : MainState) (reading : MotorVelocity × MotorTorque) :
    MainState × List Event :=
  let mv := reading.1
  let mt := reading.2
  let md : Motors :=
    { s.motor_data_ with
      velocity_1 := mv.velocity_1
      velocity_2 := mv.velocity_2
      velocity_3 := mv.velocity_3
      velocity_4 := mv.velocity_4
      torque_1 := mt.torque_1
      torque_2 := mt.torque_2
      torque_3 := mt.torque_3
      torque_4 := mt.torque_4 }
  ({ s with motor_velocity_ := mv, motor_torque_ := mt, motor_data_ := md },
   [Event.requestActualVelocity, Event.requestActualTorque, Event.setMotorData md])

/-- Models `Main::updateMotorFailure`: publish `module_status = kCriticalFailure` and
set the sticky `motor_failure_` latch. -/
def updateMotorFailure (s : MainState) : MainState × List Event :=
  let md : Motors := { s.motor_data_ with module_status := ModuleStatus.kCriticalFailure }
  ({ s with motor_data_ := md, motor_failure_ := true }, [Event.setMotorData md])

/-- Models `Main::initMotors`: guarded by `!motors_init_ && !motor_failure_`;
registers and configures the controllers, then either latches a failure or
publishes `kInit` and sets `motors_init_`.  `commFailure` is the oracle for
`communicator_.getFailure()` after configuration. -/
def initMotors (s : MainState) (commFailure : Bool) : MainState × List Event :=
  if !s.motors_init_ && !s.motor_failure_ then
    if commFailure then
      let (s1, ev1) := updateMotorFailure s
      (s1, [Event.registerControllers, Event.configureControllers] ++ ev1)
    else
      let md : Motors := { s.motor_data_ with module_status := ModuleStatus.kInit }
      ({ s with motor_data_ := md, motors_init_ := true },
       [Event.registerControllers, Event.configureControllers, Event.setMotorData md])
  else (s, [])

/-- Models `Main::prepareMotors`: guarded by `!motors_ready_ && !motor_failure_`;
puts the controllers in operational mode and health-checks them, then either
latches a failure or publishes `kReady` and sets `motors_ready_`. -/
def prepareMotors (s : MainState) (commFailure : Bool) : MainState × List Event :=
  if !s.motors_ready_ && !s.motor_failure_ then
    if commFailure then
      let (s1, ev1) := updateMotorFailure s
      (s1, [Event.prepareMotorsCall, Event.healthCheck] ++ ev1)
    else
      let md : Motors := { s.motor_data_ with module_status := ModuleStatus.kReady }
      ({ s with motor_data_ := md, motors_ready_ := true },
       [Event.prepareMotorsCall, Event.healthCheck, Event.setMotorData md])
  else (s, [])

/-- The `stopMotors` loop's exit test:
`motor_velocity_.velocity_1 == 0 && ... && motor_velocity_.velocity_4 == 0`. -/
def allZero (mv : MotorVelocity) : Bool :=
  mv.velocity_1 == 0 && mv.velocity_2 == 0 && mv.velocity_3 == 0 && mv.velocity_4 == 0

/-- The `while (!all_motors_stopped_)` loop of `Main::stopMotors`: each
iteration refreshes the actual velocities into the registry
(`updateMotorData`) and latches `all_motors_stopped_` once all four reported
velocities are zero.  `readings` is the oracle stream of actual
velocity/torque responses; `none` means the stream was exhausted with the
latch still unset (the C++ loop would still be spinning). -/
def stopLoop : MainState → List (MotorVelocity × MotorTorque) →
    Option (MainState × List Event)
  | s, [] => if s.all_motors_stopped_ then some (s, []) else none
  | s, r :: rest =>
    if s.all_motors_stopped_ then some (s, [])
    else
      let p := updateMotorData s r
      let s2 :=
        if allZero p.1.motor_velocity_ then { p.1 with all_motors_stopped_ := true }
        else p.1
      (stopLoop s2 rest).map fun q => (q.1, p.2 ++ q.2)

/-- Models `Main::stopMotors`: quick-stop all controllers, run the stopping loop,
then refresh motor data once more and command the controllers into
pre-operational.  `finalReading` is the oracle response for the
`updateMotorData()` call after the loop. -/
def stopMotors (s : MainState) (readings : List (MotorVelocity × MotorTorque))
    (finalReading : MotorVelocity × MotorTorque) : Option (MainState × List Event) :=
  (stopLoop s readings).map fun q =>
    let p := updateMotorData q.1 finalReading
    (p.1, Event.quickStopAll :: (q.2 ++ p.2 ++ [Event.enterPreOperational]))

/-- Models `NavigationType` as the motor controller consumes it
(`nav_.velocity`, passed to the setpoint functions). -/
def NavigationType : Type := Int

/-- Models `Main::accelerationVelocity`: `return target_velocity_ += 100;` — a dummy
step that ignores the measured `velocity` argument.  Returns the updated state
together with the returned value. -/
def accelerationVelocity (s : MainState) (velocity : NavigationType) :
    MainState × Int :=
  ({ s with target_velocity_ := s.target_velocity_ + 100 }, s.target_velocity_ + 100)

/-- Models `Main::decelerationVelocity`: `return target_velocity_ -= 100;`. -/
def decelerationVelocity (s : MainState) (velocity : NavigationType) :
    MainState × Int :=
  ({ s with target_velocity_ := s.target_velocity_ - 100 }, s.target_velocity_ - 100)

/-- Models `Main::accelerationTorque`: returns `0` for every velocity. -/
def accelerationTorque (velocity : NavigationType) : Int := 0

/-- Models `Main::decelerationTorque`: returns `0` for every velocity. -/
def decelerationTorque (velocity : NavigationType) : Int := 0

/-- The oracle responses one iteration of the accelerating/decelerating loop
consumes: the state-machine snapshot re-read at the top of the iteration, the
health-check result (`communicator_.getFailure()`), the navigation velocity,
the actual velocity/torque reading for `updateMotorData`, and — in case
`stopMotors` is invoked — its reading stream. -/
structure LoopEnv where
  sm : StateMachineData
  health_failure : Bool
  nav_velocity : NavigationType
  reading : MotorVelocity × MotorTorque
  stop_readings : List (MotorVelocity × MotorTorque)
  stop_final : MotorVelocity × MotorTorque

/-- One iteration of the body of `Main::accelerateMotors`'s while loop:
re-read the state-machine snapshot; if `critical_failure`, stop and break;
else health-check, and on failure latch, stop and break; else compute the next
target velocity and torque, send both over CAN, and refresh motor data.  The
returned `Bool` records whether the iteration executed `break`. -/
def accelerateIteration (s : MainState) (e : LoopEnv) :
    Option (MainState × List Event × Bool) :=
  let s1 := { s with state_ := e.sm }
  if s1.state_.critical_failure then
    (stopMotors s1 e.stop_readings e.stop_final).map fun p => (p.1, p.2, true)
  else if e.health_failure then
    let u := updateMotorFailure s1
    (stopMotors u.1 e.stop_readings e.stop_final).map fun p =>
      (p.1, Event.healthCheck :: (u.2 ++ p.2), true)
  else
    let a := accelerationVelocity s1 e.nav_velocity
    let tt := accelerationTorque e.nav_velocity
    let s3 := { a.1 with target_torque_ := tt }
    let p := updateMotorData s3 e.reading
    some (p.1, Event.healthCheck :: Event.sendTargetVelocity a.2 ::
      Event.sendTargetTorque tt :: p.2, false)

/-- One iteration of the body of `Main::decelerateMotors`'s while loop
(symmetric to `accelerateIteration` with the decreasing setpoints). -/
def decelerateIteration (s : MainState) (e : LoopEnv) :
    Option (MainState × List Event × Bool) :=
  let s1 := { s with state_ := e.sm }
  if s1.state_.critical_failure then
    (stopMotors s1 e.stop_readings e.stop_final).map fun p => (p.1, p.2, true)
  else if e.health_failure then
    let u := updateMotorFailure s1
    (stopMotors u.1 e.stop_readings e.stop_final).map fun p =>
      (p.1, Event.healthCheck :: (u.2 ++ p.2), true)
  else
    let a := decelerationVelocity s1 e.nav_velocity
    let tt := decelerationTorque e.nav_velocity
    let s3 := { a.1 with target_torque_ := tt }
    let p := updateMotorData s3 e.reading
    some (p.1, Event.healthCheck :: Event.sendTargetVelocity a.2 ::
      Event.sendTargetTorque tt :: p.2, false)

/-- The `while (state_.current_state == kAccelerating)` loop of
`Main::accelerateMotors`, driven by the oracle stream `envs` (one `LoopEnv`
per iteration; `none` when the stream runs out while the loop would still be
running). -/
def accelerateLoop : MainState → List LoopEnv → Option (MainState × List Event)
  | s, [] =>
    if s.state_.current_state == State.kAccelerating then none else some (s, [])
  | s, e :: rest =>
    if s.state_.current_state == State.kAccelerating then
      (accelerateIteration s e).bind fun t =>
        if t.2.2 then some (t.1, t.2.1)
        else (accelerateLoop t.1 rest).map fun q => (q.1, t.2.1 ++ q.2)
    else some (s, [])

/-- The `while (state_.current_state == kDecelerating)` loop of
`Main::decelerateMotors`. -/
def decelerateLoop : MainState → List LoopEnv → Option (MainState × List Event)
  | s, [] =>
    if s.state_.current_state == State.kDecelerating then none else some (s, [])
  | s, e :: rest =>
    if s.state_.current_state == State.kDecelerating then
      (decelerateIteration s e).bind fun t =>
        if t.2.2 then some (t.1, t.2.1)
        else (decelerateLoop t.1 rest).map fun q => (q.1, t.2.1 ++ q.2)
    else some (s, [])

/-- Models `Main::accelerateMotors`: on first entry (while the `nav_calib_` latch is
unset) wait on the post-calibration barrier and set the latch, then run the
accelerating loop. -/
def accelerateMotors (s : MainState) (envs : List LoopEnv) :
    Option (MainState × List Event) :=
  let p :=
    if !s.nav_calib_ then ({ s with nav_calib_ := true }, [Event.barrierWait])
    else (s, ([] : List Event))
  (accelerateLoop p.1 envs).map fun q => (q.1, p.2 ++ q.2)

/-- Classifier for CAN setpoint events (target velocity or target torque). -/
def Event.isSend : Event → Bool
  | Event.sendTargetVelocity _ => true
  | Event.sendTargetTorque _ => true
  | _ => false

/-- The target-velocity values a trace sends over CAN, in order. -/
def sendVelocities (evs : List Event) : List Int :=
  evs.filterMap fun e =>
    match e with
    | Event.sendTargetVelocity v => some v
    | _ => none

/-- A call the main run loop makes while the pod is in `kIdle` or
`kCalibrating`: `initMotors` or `prepareMotors`, with the oracle response for
`communicator_.getFailure()` it would observe. -/
inductive IdleCall where
  | init (commFailure : Bool)
  | prepare (commFailure : Bool)

/-- Run a sequence of `initMotors`/`prepareMotors` calls, accumulating the
event trace. -/
def runIdleCalls : MainState → List IdleCall → MainState × List Event
  | s, [] => (s, [])
  | s, c :: rest =>
    let p :=
      match c with
      | IdleCall.init f => initMotors s f
      | IdleCall.prepare f => prepareMotors s f
    let q := runIdleCalls p.1 rest
    (q.1, p.2 ++ q.2)

/-! ### Concrete motor-controller states and readings used as witnesses -/

/-- The zero velocity reading (all four controllers report 0). -/
def mvZero : MotorVelocity := ⟨0, 0, 0, 0⟩

/-- A nonzero velocity reading. -/
def mvRolling : MotorVelocity := ⟨50, 50, 50, 50⟩

/-- The zero torque reading. -/
def mtZero : MotorTorque := ⟨0, 0, 0, 0⟩

/-- The zero-initialised MotorData snapshot the constructor publishes. -/
def exMotors0 : Motors := ⟨ModuleStatus.kStart, 0, 0, 0, 0, 0, 0, 0, 0⟩

/-- A motor controller state mid-run: accelerating, no failure observed yet,
`all_motors_stopped_` not latched. -/
def exMain0 : MainState :=
  { state_ := ⟨State.kAccelerating, false⟩
    motor_data_ := exMotors0
    target_velocity_ := 300
    target_torque_ := 0
    nav_calib_ := true
    motors_init_ := true
    motors_ready_ := true
    motor_failure_ := false
    all_motors_stopped_ := false
    motor_velocity_ := mvRolling
    motor_torque_ := mtZero }

/-- A stop-procedure oracle: the motors still roll on the first refresh and
report zero on the second. -/
def exStopReadings : List (MotorVelocity × MotorTorque) :=
  [(mvRolling, mtZero), (mvZero, mtZero)]

/-- A loop-iteration oracle in which the re-read state-machine snapshot
carries `critical_failure = true`. -/
def exEnvCritical : LoopEnv :=
  { sm := ⟨State.kAccelerating, true⟩
    health_failure := false
    nav_velocity := (7 : Int)
    reading := (mvRolling, mtZero)
    stop_readings := exStopReadings
    stop_final := (mvZero, mtZero) }

end motor_control

/-! ## Theorems -/

namespace sensors

/-- Lemma: `updateProxi` is true exactly when both proximity banks' timestamps
advanced. -/
lemma updateProxi_eq_true_iff (old_sensors sensors : Sensors) :
    updateProxi old_sensors sensors = true ↔
      (old_sensors.proxi_front.timestamp ≠ sensors.proxi_front.timestamp ∧
       old_sensors.proxi_back.timestamp ≠ sensors.proxi_back.timestamp) := by
  by_cases h1 : old_sensors.proxi_front.timestamp = sensors.proxi_front.timestamp <;>
    by_cases h2 : old_sensors.proxi_back.timestamp = sensors.proxi_back.timestamp <;>
      simp [updateProxi, h1, h2]

/-- Lemma: `updateImu` is true exactly when every IMU's acceleration timestamp
advanced. -/
lemma updateImu_eq_true_iff (old_sensors sensors : Sensors) :
    updateImu old_sensors sensors = true ↔
      ∀ i : Fin kNumImus,
        (old_sensors.imu i).acc.timestamp ≠ (sensors.imu i).acc.timestamp := by
  simp [updateImu, List.all_eq_true, List.mem_finRange]

/-- C4, counterexample: with no IMU timestamp advanced but both proximity
banks advanced, the run loop publishes the Sensors snapshot
(`updateImu() || updateProxi()` is true) although the claimed condition
"some IMU advanced AND both proxi banks advanced" is false — so the claimed
biconditional fails on the code. -/
theorem C4_publish_counterexample :
    sensorsPublish exSensorsA exSensorsB = true ∧
      sensorsPublishClaimed exSensorsA exSensorsB = false := by
  constructor <;> decide

/-- C4, amended: the Sensors snapshot is published iff ALL eight IMU
acceleration timestamps advanced OR both proximity banks' timestamps
advanced (the source's condition is the disjunction
`updateImu() || updateProxi()`, with `updateImu` requiring every IMU
timestamp to change). -/
theorem C4_sensorsPublish_iff (old_sensors sensors : Sensors) :
    sensorsPublish old_sensors sensors = true ↔
      ((∀ i : Fin kNumImus,
          (old_sensors.imu i).acc.timestamp ≠ (sensors.imu i).acc.timestamp) ∨
       (old_sensors.proxi_front.timestamp ≠ sensors.proxi_front.timestamp ∧
        old_sensors.proxi_back.timestamp ≠ sensors.proxi_back.timestamp)) := by
  rw [sensorsPublish, Bool.or_eq_true, updateImu_eq_true_iff, updateProxi_eq_true_iff]

/-- C5: a single stuck IMU does not block publication when both proximity
banks advanced: the aggregator still publishes the Sensors snapshot that
cycle (through the `updateProxi` disjunct of the publish condition). -/
theorem C5_stuck_imu_still_publishes (old_sensors sensors : Sensors)
    (j : Fin kNumImus)
    (hfrozen : (old_sensors.imu j).acc.timestamp = (sensors.imu j).acc.timestamp)
    (hothers : ∀ i : Fin kNumImus, i ≠ j →
      (old_sensors.imu i).acc.timestamp ≠ (sensors.imu i).acc.timestamp)
    (hfront : old_sensors.proxi_front.timestamp ≠ sensors.proxi_front.timestamp)
    (hback : old_sensors.proxi_back.timestamp ≠ sensors.proxi_back.timestamp) :
    sensorsPublish old_sensors sensors = true := by
  have h : updateProxi old_sensors sensors = true :=
    (updateProxi_eq_true_iff old_sensors sensors).mpr ⟨hfront, hback⟩
  simp [sensorsPublish, h]

/-- C5, witness: IMU 0 frozen at timestamp 5, the other seven IMUs and both
proxi banks advanced; the publish condition evaluates to true. -/
theorem C5_stuck_imu_witness : sensorsPublish exSensorsA exSensorsC = true :=
  C5_stuck_imu_still_publishes exSensorsA exSensorsC 0 (by decide) (by decide)
    (by decide) (by decide)

/-- C9, counterexample: a change only in the high-power battery's voltage
does not trigger publication — `updateBattery` scans the low-power set only,
so it returns false although the claimed condition (quantified over both
sets) is true. -/
theorem C9_battery_counterexample :
    updateBattery exBatteriesA exBatteriesB = false ∧
      batteriesPublishClaimed exBatteriesA exBatteriesB = true := by
  constructor <;> decide

/-- C9, amended: the Batteries snapshot is published iff some LOW-POWER
battery's voltage or temperature differs from the previous buffer; changes
confined to the high-power set do not trigger publication. -/
theorem C9_updateBattery_iff (old_batteries batteries : Batteries) :
    updateBattery old_batteries batteries = true ↔
      ∃ i : Fin kNumLPBatteries,
        (old_batteries.low_power_batteries i).voltage ≠
            (batteries.low_power_batteries i).voltage ∨
        (old_batteries.low_power_batteries i).temperature ≠
            (batteries.low_power_batteries i).temperature := by
  simp [updateBattery, List.any_eq_true, List.mem_finRange]

end sensors

namespace navigation

/-- C8: the emergency braking distance published by navigation equals
`velocity² / (2 · 24) = velocity² / 48` exactly, and in particular is within
1e-6 relative error of `velocity² / 48`. -/
theorem C8_emergency_braking_distance (velocity : ℚ) :
    getEmergencyBrakingDistance velocity = velocity ^ 2 / 48 ∧
      |getEmergencyBrakingDistance velocity - velocity ^ 2 / 48| ≤
        (1 / 1000000) * |velocity ^ 2 / 48| := by
  have h : getEmergencyBrakingDistance velocity = velocity ^ 2 / 48 := by
    unfold getEmergencyBrakingDistance kEmergencyDeceleration
    ring
  refine ⟨h, ?_⟩
  rw [h, sub_self, abs_zero]
  positivity

end navigation

namespace motor_control

lemma updateMotorData_motor_velocity (s : MainState)
    (r : MotorVelocity × MotorTorque) :
    ((updateMotorData s r).1).motor_velocity_ = r.1 := rfl

lemma updateMotorData_all_motors_stopped (s : MainState)
    (r : MotorVelocity × MotorTorque) :
    ((updateMotorData s r).1).all_motors_stopped_ = s.all_motors_stopped_ := rfl

lemma updateMotorData_target_velocity (s : MainState)
    (r : MotorVelocity × MotorTorque) :
    ((updateMotorData s r).1).target_velocity_ = s.target_velocity_ := rfl

lemma updateMotorData_events (s : MainState) (r : MotorVelocity × MotorTorque) :
    (updateMotorData s r).2 =
      [Event.requestActualVelocity, Event.requestActualTorque,
       Event.setMotorData ((updateMotorData s r).1).motor_data_] := rfl

lemma updateMotorFailure_motor_failure (s : MainState) :
    ((updateMotorFailure s).1).motor_failure_ = true := rfl

lemma updateMotorFailure_events (s : MainState) :
    (updateMotorFailure s).2 =
      [Event.setMotorData ((updateMotorFailure s).1).motor_data_] := rfl

/-- A latched state makes the stopping loop exit immediately. -/
lemma stopLoop_latched (readings : List (MotorVelocity × MotorTorque))
    (s : MainState) (h : s.all_motors_stopped_ = true) :
    stopLoop s readings = some (s, []) := by
  cases readings <;> simp [stopLoop, h]

/-- Every event the stopping loop emits is an actual-velocity/torque request
or a registry publication. -/
lemma stopLoop_events (readings : List (MotorVelocity × MotorTorque)) :
    ∀ (s s' : MainState) (evs : List Event), stopLoop s readings = some (s', evs) →
      ∀ e ∈ evs, e = Event.requestActualVelocity ∨ e = Event.requestActualTorque ∨
        ∃ m, e = Event.setMotorData m := by
  induction readings with
  | nil =>
    intro s s' evs h
    rcases hl : s.all_motors_stopped_ with _ | _ <;> simp [stopLoop, hl] at h
    obtain ⟨h1, h2⟩ := h
    subst h2
    simp
  | cons r rest ih =>
    intro s s' evs h
    rcases hl : s.all_motors_stopped_ with _ | _
    · simp only [stopLoop, hl, Bool.false_eq_true, if_false] at h
      rw [Option.map_eq_some'] at h
      obtain ⟨q, hq, hfq⟩ := h
      simp only [Prod.mk.injEq] at hfq
      intro e he
      rw [← hfq.2] at he
      rw [updateMotorData_events] at he
      simp only [List.mem_append, List.mem_cons, List.not_mem_nil, or_false] at he
      rcases he with (h1 | h1 | h1) | h1
      · exact Or.inl h1
      · exact Or.inr (Or.inl h1)
      · exact Or.inr (Or.inr ⟨_, h1⟩)
      · exact ih _ _ _ hq e h1
    · simp only [stopLoop, hl, if_true, Option.some.injEq, Prod.mk.injEq] at h
      obtain ⟨h1, h2⟩ := h
      subst h2
      simp

/-- From an unlatched state, a reading stream that contains an all-zero
velocity report makes the stopping loop terminate with the latch set. -/
lemma stopLoop_some (readings : List (MotorVelocity × MotorTorque)) :
    ∀ s : MainState, s.all_motors_stopped_ = false →
      (∃ r ∈ readings, allZero r.1 = true) →
      ∃ s' evs, stopLoop s readings = some (s', evs) ∧
        s'.all_motors_stopped_ = true := by
  induction readings with
  | nil => intro s _ hex; simp at hex
  | cons r rest ih =>
    intro s hs hex
    rcases hz : allZero r.1 with _ | _
    · have hex' : ∃ r' ∈ rest, allZero r'.1 = true := by
        rcases hex with ⟨r', hmem, hz'⟩
        rcases List.mem_cons.mp hmem with rfl | hmem'
        · rw [hz] at hz'; exact absurd hz' (by simp)
        · exact ⟨r', hmem', hz'⟩
      have hs1 : ((updateMotorData s r).1).all_motors_stopped_ = false := by
        rw [updateMotorData_all_motors_stopped, hs]
      obtain ⟨s', evs, heq, hlatch⟩ := ih _ hs1 hex'
      refine ⟨s', (updateMotorData s r).2 ++ evs, ?_, hlatch⟩
      simp only [stopLoop, hs, Bool.false_eq_true, if_false,
        updateMotorData_motor_velocity, hz, if_false]
      rw [heq]
      rfl
    · refine ⟨{ (updateMotorData s r).1 with all_motors_stopped_ := true },
        (updateMotorData s r).2 ++ [], ?_, rfl⟩
      simp only [stopLoop, hs, Bool.false_eq_true, if_false,
        updateMotorData_motor_velocity, hz, if_true]
      rw [stopLoop_latched rest]
      · rfl
      · rfl

/-- From an unlatched state, a reading stream in which no report is all-zero
leaves the stopping loop spinning (the oracle runs out). -/
lemma stopLoop_none (readings : List (MotorVelocity × MotorTorque)) :
    ∀ s : MainState, s.all_motors_stopped_ = false →
      (∀ r ∈ readings, allZero r.1 = false) →
      stopLoop s readings = none := by
  induction readings with
  | nil => intro s hs _; simp [stopLoop, hs]
  | cons r rest ih =>
    intro s hs hall
    have hz : allZero r.1 = false := hall r (List.mem_cons_self r rest)
    have hs1 : ((updateMotorData s r).1).all_motors_stopped_ = false := by
      rw [updateMotorData_all_motors_stopped, hs]
    simp only [stopLoop, hs, Bool.false_eq_true, if_false,
      updateMotorData_motor_velocity, hz, if_false]
    rw [ih _ hs1 fun r' hr' => hall r' (List.mem_cons_of_mem r hr')]
    rfl

/-- Every event in a completed `stopMotors` trace is one of quick-stop,
actual-value request, registry publication or pre-operational: in particular
no CAN setpoint is sent and the barrier is never waited on. -/
lemma stopMotors_events (s : MainState)
    (readings : List (MotorVelocity × MotorTorque))
    (finalReading : MotorVelocity × MotorTorque) (s' : MainState)
    (evs : List Event) (h : stopMotors s readings finalReading = some (s', evs)) :
    ∀ e ∈ evs, Event.isSend e = false ∧ e ≠ Event.barrierWait := by
  unfold stopMotors at h
  rw [Option.map_eq_some'] at h
  obtain ⟨q, hq, hfq⟩ := h
  simp only [Prod.mk.injEq] at hfq
  intro e he
  rw [← hfq.2] at he
  rw [updateMotorData_events] at he
  simp only [List.mem_cons, List.mem_append, List.not_mem_nil, or_false] at he
  rcases he with rfl | (h1 | (rfl | rfl | rfl)) | rfl
  · exact ⟨rfl, by simp⟩
  · rcases stopLoop_events readings s q.1 q.2 hq e h1 with rfl | rfl | ⟨m, rfl⟩ <;>
      exact ⟨rfl, by simp⟩
  all_goals exact ⟨rfl, by simp⟩

/-- C1: the stop procedure, entered with the `all_motors_stopped_` latch
unset, first issues quick-stop to all controllers, then repeatedly refreshes
actual velocities into the registry, latches `all_motors_stopped_ = true`
exactly when a refresh reports all four velocities zero (if no refresh ever
does, the loop never exits), then publishes motor data once more and commands
the controllers into pre-operational — and the whole trace makes no call that
waits on another module (no barrier wait) and sends no CAN setpoint. -/
theorem C1_stopMotors_procedure (s : MainState)
    (readings : List (MotorVelocity × MotorTorque))
    (finalReading : MotorVelocity × MotorTorque)
    (hlatch : s.all_motors_stopped_ = false) :
    ((∃ r ∈ readings, allZero r.1 = true) →
      ∃ s' evs md,
        stopMotors s readings finalReading =
          some (s', Event.quickStopAll ::
            (evs ++ [Event.requestActualVelocity, Event.requestActualTorque,
              Event.setMotorData md, Event.enterPreOperational])) ∧
        s'.all_motors_stopped_ = true ∧
        (∀ e ∈ evs, e = Event.requestActualVelocity ∨
          e = Event.requestActualTorque ∨ ∃ m, e = Event.setMotorData m) ∧
        (∀ e ∈ Event.quickStopAll ::
            (evs ++ [Event.requestActualVelocity, Event.requestActualTorque,
              Event.setMotorData md, Event.enterPreOperational]),
          Event.isSend e = false ∧ e ≠ Event.barrierWait)) ∧
    ((∀ r ∈ readings, allZero r.1 = false) →
      stopMotors s readings finalReading = none) := by
  constructor
  · intro hex
    obtain ⟨s1, evs0, hloop, hl1⟩ := stopLoop_some readings s hlatch hex
    have heq : stopMotors s readings finalReading =
        some ((updateMotorData s1 finalReading).1, Event.quickStopAll ::
          (evs0 ++ [Event.requestActualVelocity, Event.requestActualTorque,
            Event.setMotorData ((updateMotorData s1 finalReading).1).motor_data_,
            Event.enterPreOperational])) := by
      unfold stopMotors
      rw [hloop, Option.map_some']
      simp [updateMotorData_events, List.append_assoc]
    refine ⟨(updateMotorData s1 finalReading).1, evs0,
      ((updateMotorData s1 finalReading).1).motor_data_, heq, ?_,
      stopLoop_events readings s s1 evs0 hloop, ?_⟩
    · rw [updateMotorData_all_motors_stopped, hl1]
    · have hstop := stopMotors_events s readings finalReading _ _ heq
      intro e he
      exact hstop e he
  · intro hnone
    unfold stopMotors
    rw [stopLoop_none readings s hlatch hnone]
    rfl

/-- C1, witness: from an accelerating state with the latch unset and a
reading stream whose second report is all-zero, the stop procedure completes
with the latch set and never waits on the barrier. -/
theorem C1_stopMotors_witness :
    ∃ s' evs, stopMotors exMain0 exStopReadings (mvZero, mtZero) = some (s', evs) ∧
      s'.all_motors_stopped_ = true ∧ Event.barrierWait ∉ evs := by
  obtain ⟨s', evs, md, heq, hl, _, hall⟩ :=
    (C1_stopMotors_procedure exMain0 exStopReadings (mvZero, mtZero) rfl).1
      ⟨(mvZero, mtZero), by decide, by decide⟩
  exact ⟨s', _, heq, hl, fun hmem => (hall _ hmem).2 rfl⟩

lemma set_state_state (s : MainState) (d : StateMachineData) :
    ({ s with state_ := d } : MainState).state_ = d := rfl

lemma set_state_target_velocity (s : MainState) (d : StateMachineData) :
    ({ s with state_ := d } : MainState).target_velocity_ = s.target_velocity_ := rfl

/-- Lemma: `sendVelocities` distributes over concatenation. -/
lemma sendVelocities_append (l1 l2 : List Event) :
    sendVelocities (l1 ++ l2) = sendVelocities l1 ++ sendVelocities l2 := by
  simp [sendVelocities, List.filterMap_append]

/-- A trace without setpoint events sends no target velocities. -/
lemma sendVelocities_eq_nil : ∀ l : List Event,
    (∀ e ∈ l, Event.isSend e = false) → sendVelocities l = []
  | [], _ => rfl
  | a :: t, h => by
    have ha := h a (List.mem_cons_self a t)
    have hnone : (fun e => match e with
        | Event.sendTargetVelocity v => some v
        | _ => none) a = (none : Option Int) := by
      cases a <;> simp_all [Event.isSend]
    simp only [sendVelocities, List.filterMap_cons, hnone]
    exact sendVelocities_eq_nil t fun e he => h e (List.mem_cons_of_mem a he)

/-- Case analysis of one accelerating-loop iteration: either it broke (on the
critical-failure flag or a failed health check) and its trace contains no CAN
setpoint, or it completed normally — which requires both flags clear — and it
sent exactly one target velocity, the previous target stepped up by 100, and
only zero target torques. -/
lemma accelerateIteration_spec (s : MainState) (e : LoopEnv) (s1 : MainState)
    (evs : List Event) (brk : Bool)
    (h : accelerateIteration s e = some (s1, evs, brk)) :
    (brk = true ∧ ∀ ev ∈ evs, Event.isSend ev = false) ∨
    (brk = false ∧ e.sm.critical_failure = false ∧ e.health_failure = false ∧
      s1.target_velocity_ = s.target_velocity_ + 100 ∧
      sendVelocities evs = [s.target_velocity_ + 100] ∧
      ∀ t, Event.sendTargetTorque t ∈ evs → t = 0) := by
  unfold accelerateIteration at h
  by_cases hc : e.sm.critical_failure = true
  · left
    rw [if_pos (show ({ s with state_ := e.sm } : MainState).state_.critical_failure
        = true from hc)] at h
    rw [Option.map_eq_some'] at h
    obtain ⟨p, hp, hfp⟩ := h
    simp only [Prod.mk.injEq] at hfp
    refine ⟨hfp.2.2.symm, ?_⟩
    intro ev hev
    rw [← hfp.2.1] at hev
    exact (stopMotors_events _ _ _ _ _ hp ev hev).1
  · rw [if_neg (show ¬ ({ s with state_ := e.sm } : MainState).state_.critical_failure
        = true from hc)] at h
    have hcf : e.sm.critical_failure = false := by
      revert hc; cases e.sm.critical_failure <;> simp
    by_cases hh : e.health_failure = true
    · left
      rw [if_pos hh] at h
      rw [Option.map_eq_some'] at h
      obtain ⟨p, hp, hfp⟩ := h
      simp only [Prod.mk.injEq] at hfp
      refine ⟨hfp.2.2.symm, ?_⟩
      intro ev hev
      rw [← hfp.2.1] at hev
      rw [updateMotorFailure_events] at hev
      simp only [List.mem_cons, List.mem_append, List.not_mem_nil, or_false] at hev
      rcases hev with rfl | (rfl | h1)
      · rfl
      · rfl
      · exact (stopMotors_events _ _ _ _ _ hp ev h1).1
    · right
      have hhf : e.health_failure = false := by
        revert hh; cases e.health_failure <;> simp
      rw [if_neg hh] at h
      simp only [Option.some.injEq, Prod.mk.injEq] at h
      obtain ⟨h1, h2, h3⟩ := h
      subst h1
      subst h2
      refine ⟨h3.symm, hcf, hhf, rfl, rfl, ?_⟩
      intro t ht
      rw [updateMotorData_events] at ht
      simp only [accelerationTorque, List.mem_cons, List.not_mem_nil, or_false,
        Event.sendTargetTorque.injEq] at ht
      rcases ht with h' | h' | h' | h' | h' | h' <;> simp_all

/-- Mirror of `accelerateIteration_spec` for the decelerating loop: a normal
iteration steps the target down by 100. -/
lemma decelerateIteration_spec (s : MainState) (e : LoopEnv) (s1 : MainState)
    (evs : List Event) (brk : Bool)
    (h : decelerateIteration s e = some (s1, evs, brk)) :
    (brk = true ∧ ∀ ev ∈ evs, Event.isSend ev = false) ∨
    (brk = false ∧ e.sm.critical_failure = false ∧ e.health_failure = false ∧
      s1.target_velocity_ = s.target_velocity_ - 100 ∧
      sendVelocities evs = [s.target_velocity_ - 100] ∧
      ∀ t, Event.sendTargetTorque t ∈ evs → t = 0) := by
  unfold decelerateIteration at h
  by_cases hc : e.sm.critical_failure = true
  · left
    rw [if_pos (show ({ s with state_ := e.sm } : MainState).state_.critical_failure
        = true from hc)] at h
    rw [Option.map_eq_some'] at h
    obtain ⟨p, hp, hfp⟩ := h
    simp only [Prod.mk.injEq] at hfp
    refine ⟨hfp.2.2.symm, ?_⟩
    intro ev hev
    rw [← hfp.2.1] at hev
    exact (stopMotors_events _ _ _ _ _ hp ev hev).1
  · rw [if_neg (show ¬ ({ s with state_ := e.sm } : MainState).state_.critical_failure
        = true from hc)] at h
    have hcf : e.sm.critical_failure = false := by
      revert hc; cases e.sm.critical_failure <;> simp
    by_cases hh : e.health_failure = true
    · left
      rw [if_pos hh] at h
      rw [Option.map_eq_some'] at h
      obtain ⟨p, hp, hfp⟩ := h
      simp only [Prod.mk.injEq] at hfp
      refine ⟨hfp.2.2.symm, ?_⟩
      intro ev hev
      rw [← hfp.2.1] at hev
      rw [updateMotorFailure_events] at hev
      simp only [List.mem_cons, List.mem_append, List.not_mem_nil, or_false] at hev
      rcases hev with rfl | (rfl | h1)
      · rfl
      · rfl
      · exact (stopMotors_events _ _ _ _ _ hp ev h1).1
    · right
      have hhf : e.health_failure = false := by
        revert hh; cases e.health_failure <;> simp
      rw [if_neg hh] at h
      simp only [Option.some.injEq, Prod.mk.injEq] at h
      obtain ⟨h1, h2, h3⟩ := h
      subst h1
      subst h2
      refine ⟨h3.symm, hcf, hhf, rfl, rfl, ?_⟩
      intro t ht
      rw [updateMotorData_events] at ht
      simp only [decelerationTorque, List.mem_cons, List.not_mem_nil, or_false,
        Event.sendTargetTorque.injEq] at ht
      rcases ht with h' | h' | h' | h' | h' | h' <;> simp_all

/-- Splitting a map over `List.range (k+1)` into its head and shifted tail. -/
lemma map_range_succ (f : Nat → Int) (k : Nat) :
    (List.range (k + 1)).map f = f 0 :: (List.range k).map fun i => f (i + 1) := by
  rw [List.range_succ_eq_map, List.map_cons, List.map_map]
  rfl

/-- The target velocities an accelerating run sends over CAN form an
arithmetic progression stepping up by 100 from the entry target. -/
lemma accelerateLoop_sendVelocities :
    ∀ (envs : List LoopEnv) (s s' : MainState) (evs : List Event),
      accelerateLoop s envs = some (s', evs) →
      ∃ k : Nat, sendVelocities evs =
        (List.range k).map fun i : Nat => s.target_velocity_ + 100 + 100 * (i : Int) := by
  intro envs
  induction envs with
  | nil =>
    intro s s' evs h
    simp only [accelerateLoop] at h
    split at h
    · exact absurd h (by simp)
    · simp only [Option.some.injEq, Prod.mk.injEq] at h
      obtain ⟨h1, h2⟩ := h
      subst h2
      exact ⟨0, by simp [sendVelocities]⟩
  | cons e rest ih =>
    intro s s' evs h
    simp only [accelerateLoop] at h
    split at h
    · rcases hit : accelerateIteration s e with _ | t
      · rw [hit] at h; exact absurd h (by simp)
      · rw [hit] at h
        simp only [Option.some_bind] at h
        rcases accelerateIteration_spec s e t.1 t.2.1 t.2.2 (by rw [hit]) with
          ⟨hbrk, hsends⟩ | ⟨hbrk, _, _, htv, hsv, _⟩
        · rw [hbrk, if_pos rfl] at h
          simp only [Option.some.injEq, Prod.mk.injEq] at h
          obtain ⟨h1, h2⟩ := h
          subst h2
          exact ⟨0, by rw [sendVelocities_eq_nil _ hsends]; simp⟩
        · rw [hbrk] at h
          rw [if_neg (by simp)] at h
          rw [Option.map_eq_some'] at h
          obtain ⟨q, hq, hfq⟩ := h
          simp only [Prod.mk.injEq] at hfq
          obtain ⟨hq1, hq2⟩ := hfq
          subst hq2
          obtain ⟨k, hk⟩ := ih t.1 q.1 q.2 hq
          rw [htv] at hk
          refine ⟨k + 1, ?_⟩
          rw [sendVelocities_append, hsv, hk, map_range_succ, List.singleton_append]
          congr 1
          · push_cast; ring
          · refine List.map_congr_left fun i hi => ?_
            push_cast; ring
    · simp only [Option.some.injEq, Prod.mk.injEq] at h
      obtain ⟨h1, h2⟩ := h
      subst h2
      exact ⟨0, by simp [sendVelocities]⟩

/-- The target velocities a decelerating run sends over CAN form an
arithmetic progression stepping down by 100 from the entry target. -/
lemma decelerateLoop_sendVelocities :
    ∀ (envs : List LoopEnv) (s s' : MainState) (evs : List Event),
      decelerateLoop s envs = some (s', evs) →
      ∃ k : Nat, sendVelocities evs =
        (List.range k).map fun i : Nat => s.target_velocity_ - 100 - 100 * (i : Int) := by
  intro envs
  induction envs with
  | nil =>
    intro s s' evs h
    simp only [decelerateLoop] at h
    split at h
    · exact absurd h (by simp)
    · simp only [Option.some.injEq, Prod.mk.injEq] at h
      obtain ⟨h1, h2⟩ := h
      subst h2
      exact ⟨0, by simp [sendVelocities]⟩
  | cons e rest ih =>
    intro s s' evs h
    simp only [decelerateLoop] at h
    split at h
    · rcases hit : decelerateIteration s e with _ | t
      · rw [hit] at h; exact absurd h (by simp)
      · rw [hit] at h
        simp only [Option.some_bind] at h
        rcases decelerateIteration_spec s e t.1 t.2.1 t.2.2 (by rw [hit]) with
          ⟨hbrk, hsends⟩ | ⟨hbrk, _, _, htv, hsv, _⟩
        · rw [hbrk, if_pos rfl] at h
          simp only [Option.some.injEq, Prod.mk.injEq] at h
          obtain ⟨h1, h2⟩ := h
          subst h2
          exact ⟨0, by rw [sendVelocities_eq_nil _ hsends]; simp⟩
        · rw [hbrk] at h
          rw [if_neg (by simp)] at h
          rw [Option.map_eq_some'] at h
          obtain ⟨q, hq, hfq⟩ := h
          simp only [Prod.mk.injEq] at hfq
          obtain ⟨hq1, hq2⟩ := hfq
          subst hq2
          obtain ⟨k, hk⟩ := ih t.1 q.1 q.2 hq
          rw [htv] at hk
          refine ⟨k + 1, ?_⟩
          rw [sendVelocities_append, hsv, hk, map_range_succ, List.singleton_append]
          congr 1
          · push_cast; ring
          · refine List.map_congr_left fun i hi => ?_
            push_cast; ring
    · simp only [Option.some.injEq, Prod.mk.injEq] at h
      obtain ⟨h1, h2⟩ := h
      subst h2
      exact ⟨0, by simp [sendVelocities]⟩

/-- Every target torque an accelerating run sends over CAN is zero. -/
lemma accelerateLoop_torques :
    ∀ (envs : List LoopEnv) (s s' : MainState) (evs : List Event),
      accelerateLoop s envs = some (s', evs) →
      ∀ t, Event.sendTargetTorque t ∈ evs → t = 0 := by
  intro envs
  induction envs with
  | nil =>
    intro s s' evs h
    simp only [accelerateLoop] at h
    split at h
    · exact absurd h (by simp)
    · simp only [Option.some.injEq, Prod.mk.injEq] at h
      obtain ⟨h1, h2⟩ := h
      subst h2
      simp
  | cons e rest ih =>
    intro s s' evs h
    simp only [accelerateLoop] at h
    split at h
    · rcases hit : accelerateIteration s e with _ | it
      · rw [hit] at h; exact absurd h (by simp)
      · rw [hit] at h
        simp only [Option.some_bind] at h
        rcases accelerateIteration_spec s e it.1 it.2.1 it.2.2 (by rw [hit]) with
          ⟨hbrk, hsends⟩ | ⟨hbrk, _, _, _, _, htq⟩
        · rw [hbrk, if_pos rfl] at h
          simp only [Option.some.injEq, Prod.mk.injEq] at h
          obtain ⟨h1, h2⟩ := h
          subst h2
          intro t ht
          have := hsends _ ht
          simp [Event.isSend] at this
        · rw [hbrk] at h
          rw [if_neg (by simp)] at h
          rw [Option.map_eq_some'] at h
          obtain ⟨q, hq, hfq⟩ := h
          simp only [Prod.mk.injEq] at hfq
          obtain ⟨hq1, hq2⟩ := hfq
          subst hq2
          intro t ht
          rcases List.mem_append.mp ht with h1 | h1
          · exact htq t h1
          · exact ih it.1 q.1 q.2 hq t h1
    · simp only [Option.some.injEq, Prod.mk.injEq] at h
      obtain ⟨h1, h2⟩ := h
      subst h2
      simp
/-- Every target torque a decelerating run sends over CAN is zero. -/
lemma decelerateLoop_torques :
    ∀ (envs : List LoopEnv) (s s' : MainState) (evs : List Event),
      decelerateLoop s envs = some (s', evs) →
      ∀ t, Event.sendTargetTorque t ∈ evs → t = 0 := by
  intro envs
  induction envs with
  | nil =>
    intro s s' evs h
    simp only [decelerateLoop] at h
    split at h
    · exact absurd h (by simp)
    · simp only [Option.some.injEq, Prod.mk.injEq] at h
      obtain ⟨h1, h2⟩ := h
      subst h2
      simp
  | cons e rest ih =>
    intro s s' evs h
    simp only [decelerateLoop] at h
    split at h
    · rcases hit : decelerateIteration s e with _ | it
      · rw [hit] at h; exact absurd h (by simp)
      · rw [hit] at h
        simp only [Option.some_bind] at h
        rcases decelerateIteration_spec s e it.1 it.2.1 it.2.2 (by rw [hit]) with
          ⟨hbrk, hsends⟩ | ⟨hbrk, _, _, _, _, htq⟩
        · rw [hbrk, if_pos rfl] at h
          simp only [Option.some.injEq, Prod.mk.injEq] at h
          obtain ⟨h1, h2⟩ := h
          subst h2
          intro t ht
          have := hsends _ ht
          simp [Event.isSend] at this
        · rw [hbrk] at h
          rw [if_neg (by simp)] at h
          rw [Option.map_eq_some'] at h
          obtain ⟨q, hq, hfq⟩ := h
          simp only [Prod.mk.injEq] at hfq
          obtain ⟨hq1, hq2⟩ := hfq
          subst hq2
          intro t ht
          rcases List.mem_append.mp ht with h1 | h1
          · exact htq t h1
          · exact ih it.1 q.1 q.2 hq t h1
    · simp only [Option.some.injEq, Prod.mk.injEq] at h
      obtain ⟨h1, h2⟩ := h
      subst h2
      simp

/-- C2: in every iteration of the accelerating loop, the state-machine
snapshot is re-read first; if its `critical_failure` flag is set the iteration
is exactly a call to `stopMotors` followed by `break`, and no CAN setpoint is
sent; conversely an iteration's trace contains a CAN setpoint only if the
re-read flag was false and the health check reported no failure. -/
theorem C2_accelerate_critical_failure (s : MainState) (e : LoopEnv) :
    (e.sm.critical_failure = true →
      accelerateIteration s e =
        (stopMotors { s with state_ := e.sm } e.stop_readings e.stop_final).map
          (fun p => (p.1, p.2, true)) ∧
      ∀ s1 evs brk, accelerateIteration s e = some (s1, evs, brk) →
        brk = true ∧ ∀ ev ∈ evs, Event.isSend ev = false) ∧
    (∀ s1 evs brk, accelerateIteration s e = some (s1, evs, brk) →
      (∃ x, Event.sendTargetVelocity x ∈ evs ∨ Event.sendTargetTorque x ∈ evs) →
      e.sm.critical_failure = false ∧ e.health_failure = false) ∧
    (∀ rest s' evs, s.state_.current_state = State.kAccelerating →
      e.sm.critical_failure = true →
      accelerateLoop s (e :: rest) = some (s', evs) →
      ∀ ev ∈ evs, Event.isSend ev = false) := by
  refine ⟨?_, ?_, ?_⟩
  · intro hcrit
    have e1 : accelerateIteration s e =
        (stopMotors { s with state_ := e.sm } e.stop_readings e.stop_final).map
          (fun p => (p.1, p.2, true)) := by
      unfold accelerateIteration
      rw [if_pos (show ({ s with state_ := e.sm } : MainState).state_.critical_failure
          = true from hcrit)]
    refine ⟨e1, ?_⟩
    intro s1 evs brk h
    rcases accelerateIteration_spec s e s1 evs brk h with ⟨hbrk, hsends⟩ | ⟨_, hcf, _⟩
    · exact ⟨hbrk, hsends⟩
    · rw [hcrit] at hcf; exact absurd hcf (by simp)
  · intro s1 evs brk h hex
    rcases accelerateIteration_spec s e s1 evs brk h with ⟨_, hsends⟩ | ⟨_, hcf, hhf, _⟩
    · obtain ⟨x, hx | hx⟩ := hex
      · have := hsends _ hx; simp [Event.isSend] at this
      · have := hsends _ hx; simp [Event.isSend] at this
    · exact ⟨hcf, hhf⟩
  · intro rest s' evs hg hcrit hl
    simp only [accelerateLoop] at hl
    rw [if_pos (by simp [hg])] at hl
    rcases hit : accelerateIteration s e with _ | t
    · rw [hit] at hl; exact absurd hl (by simp)
    · rw [hit] at hl
      simp only [Option.some_bind] at hl
      rcases accelerateIteration_spec s e t.1 t.2.1 t.2.2 (by rw [hit]) with
        ⟨hbrk, hsends⟩ | ⟨_, hcf, _⟩
      · rw [hbrk, if_pos rfl] at hl
        simp only [Option.some.injEq, Prod.mk.injEq] at hl
        obtain ⟨h1, h2⟩ := hl
        subst h2
        exact hsends
      · rw [hcrit] at hcf; exact absurd hcf (by simp)

/-- C6: `updateMotorFailure` sets the sticky `motor_failure_` latch; while
the latch is set, `initMotors` and `prepareMotors` return the state unchanged
with an empty trace (no communicator call, no registry publication), and so
does any sequence of such calls made after the latch was set. -/
theorem C6_motor_failure_sticky (s : MainState) (f : Bool)
    (calls : List IdleCall) :
    ((updateMotorFailure s).1).motor_failure_ = true ∧
    (∀ t : MainState, t.motor_failure_ = true →
      initMotors t f = (t, []) ∧ prepareMotors t f = (t, [])) ∧
    runIdleCalls (updateMotorFailure s).1 calls = ((updateMotorFailure s).1, []) := by
  have noop : ∀ (t : MainState) (f' : Bool), t.motor_failure_ = true →
      initMotors t f' = (t, []) ∧ prepareMotors t f' = (t, []) := by
    intro t f' ht
    constructor <;> simp [initMotors, prepareMotors, ht]
  refine ⟨rfl, fun t ht => noop t f ht, ?_⟩
  have key : ∀ (cs : List IdleCall) (t : MainState), t.motor_failure_ = true →
      runIdleCalls t cs = (t, []) := by
    intro cs
    induction cs with
    | nil => intro t ht; rfl
    | cons c rest ih =>
      intro t ht
      cases c with
      | init f' =>
        simp [runIdleCalls, (noop t f' ht).1, ih t ht]
      | prepare f' =>
        simp [runIdleCalls, (noop t f' ht).2, ih t ht]
  exact key calls _ rfl

/-- C7: `accelerationVelocity` returns the stored target stepped up by
exactly 100 and `decelerationVelocity` returns it stepped down by exactly
100, both ignoring the measured velocity argument; consequently the target
velocities sent across consecutive iterations of the accelerating loop are
strictly increasing and those of the decelerating loop strictly decreasing. -/
theorem C7_setpoint_step_monotone (s : MainState) (v w : NavigationType) :
    accelerationVelocity s v =
      ({ s with target_velocity_ := s.target_velocity_ + 100 },
        s.target_velocity_ + 100) ∧
    decelerationVelocity s v =
      ({ s with target_velocity_ := s.target_velocity_ - 100 },
        s.target_velocity_ - 100) ∧
    accelerationVelocity s v = accelerationVelocity s w ∧
    decelerationVelocity s v = decelerationVelocity s w ∧
    (∀ envs s' evs, accelerateLoop s envs = some (s', evs) →
      (sendVelocities evs).Pairwise (· < ·)) ∧
    (∀ envs s' evs, decelerateLoop s envs = some (s', evs) →
      (sendVelocities evs).Pairwise (· > ·)) := by
  refine ⟨rfl, rfl, rfl, rfl, ?_, ?_⟩
  · intro envs s' evs h
    obtain ⟨k, hk⟩ := accelerateLoop_sendVelocities envs s s' evs h
    rw [hk]
    exact List.Pairwise.map _ (fun a b hab => by omega) (List.pairwise_lt_range k)
  · intro envs s' evs h
    obtain ⟨k, hk⟩ := decelerateLoop_sendVelocities envs s s' evs h
    rw [hk]
    exact List.Pairwise.map _ (fun a b hab => by simp only [gt_iff_lt]; omega)
      (List.pairwise_lt_range k)

/-- C10: the torque setpoint laws return 0 for every measured velocity, and
consequently every target torque sent over CAN during the accelerating and
decelerating loops is exactly 0. -/
theorem C10_torque_setpoints_zero (v : NavigationType) :
    accelerationTorque v = 0 ∧ decelerationTorque v = 0 ∧
    (∀ s envs s' evs t, accelerateLoop s envs = some (s', evs) →
      Event.sendTargetTorque t ∈ evs → t = 0) ∧
    (∀ s envs s' evs t, decelerateLoop s envs = some (s', evs) →
      Event.sendTargetTorque t ∈ evs → t = 0) := by
  refine ⟨rfl, rfl, ?_, ?_⟩
  · intro s envs s' evs t h ht
    exact accelerateLoop_torques envs s s' evs h t ht
  · intro s envs s' evs t h ht
    exact decelerateLoop_torques envs s s' evs h t ht

end motor_control

end hyped
